import Mathlib

/-!
Shallow embedding of the rate-limiting / client-identification subsystem of
the Resto-n8n repository.

Client side (`src/hooks/useRateLimit.ts`): a fixed-window admission gate
persisting a `RequestRecord` redundantly in three storage backends
(localStorage, sessionStorage, cookie).  Storage cells hold serialized
values; serialization is abstracted by `StoredValue`: `.json r` stands for
`JSON.stringify` of a well-formed record (with `JSON.parse` recovering `r`),
`.corrupt s` stands for any string on which `JSON.parse` throws.

Server side (`src/app/api/restaurants/route.ts`): an in-memory map from a
client identifier to a windowed counter, modelled as an association list,
plus the identity derivation `getClientIdentifier` (first forwarded-for hop,
else real-ip, else client-ip, else loopback, combined with a base64 hash of
the truncated user agent).

JavaScript truthiness of strings (`if (value)`, `!fingerprint`,
`record.fingerprint && ...`) is modelled by explicit emptiness tests.
Numbers are embedded as `Int` (timestamps, durations) and `Nat` (counts).
-/

namespace Resto

/-- Client-side configuration (`RateLimitConfig` in `useRateLimit.ts`). -/
structure RateLimitConfig where
  maxRequests : Nat
  windowMs : Int
  storageKey : String
deriving DecidableEq

/-- Persisted client record (`RequestRecord`): `timestamp` is the window
start, `count` the number of admitted requests, `fingerprint` the optional
browser fingerprint stamped at the last increment. -/
structure RequestRecord where
  timestamp : Int
  count : Nat
  fingerprint : Option String
deriving DecidableEq

/-- A raw value held by one storage backend: either the JSON serialization
of a well-formed record, or a corrupt string on which `JSON.parse` throws. -/
inductive StoredValue where
  | json (r : RequestRecord)
  | corrupt (s : String)
deriving DecidableEq

/-- `JSON.parse` on a stored value: recovers the record from a
serialization, throws (`none`) on a corrupt value. -/
def parseStored : StoredValue → Option RequestRecord
  | .json r => some r
  | .corrupt _ => none

/-- The three client storage backends.  `none` models absence (and, per JS
truthiness, the empty string). -/
structure ClientStorage where
  localS : Option StoredValue
  sessionS : Option StoredValue
  cookie : Option StoredValue
deriving DecidableEq

/-- The state before anything was ever stored. -/
def emptyStorage : ClientStorage := ⟨none, none, none⟩

/-- `setMultiStorage` (useRateLimit.ts:17): fan the value out to all three
backends. -/
def setMultiStorage (value : StoredValue) (st : ClientStorage) : ClientStorage :=
  ⟨some value, some value, some value⟩

/-- `getMultiStorage` (useRateLimit.ts:31): read localStorage first, then
sessionStorage (back-filling localStorage on a hit), then the cookie
(back-filling both).  Returns the value found (if any) together with the
storage state after back-filling. -/
def getMultiStorage (st : ClientStorage) : Option StoredValue × ClientStorage :=
  match st.localS with
  | some v => (some v, st)
  | none =>
    match st.sessionS with
    | some v => (some v, { st with localS := some v })
    | none =>
      match st.cookie with
      | some v => (some v, { st with localS := some v, sessionS := some v })
      | none => (none, st)

/-- Reactive state published by the hook (`isLimited`, `remainingRequests`,
`resetTime`). -/
structure ClientView where
  isLimited : Bool
  remainingRequests : Int
  resetTime : Option Int
deriving DecidableEq

/-- Initial reactive state of the hook (useRateLimit.ts:62-66). -/
def initView (config : RateLimitConfig) : ClientView :=
  ⟨false, (config.maxRequests : Int), none⟩

/-- The fingerprint-integrity test of `detectManipulation`
(useRateLimit.ts:190-196) on one stored value: the record parses, carries a
truthy fingerprint, and that fingerprint differs from the current one.  A
parse failure is caught and reported as `false` (lines 199-202). -/
def fingerprintMismatch (fingerprint : String) (v : StoredValue) : Bool :=
  match parseStored v with
  | some record =>
    match record.fingerprint with
    | some f => if f = "" then false else decide (f ≠ fingerprint)
    | none => false
  | none => false

/-- `detectManipulation` (useRateLimit.ts:173-203): if exactly one of
localStorage/sessionStorage holds a value, flag it and heal by copying the
present value into the missing backend; otherwise check the fingerprint
stored in localStorage against the current one.  The cookie backend is never
examined.  Returns the flag and the (possibly healed) storage. -/
def detectManipulation (config : RateLimitConfig) (fingerprint : String)
    (st : ClientStorage) : Bool × ClientStorage :=
  if fingerprint = "" then (false, st)
  else
    match st.localS, st.sessionS with
    | some v, none => (true, ⟨some v, some v, st.cookie⟩)
    | none, some v => (true, ⟨some v, some v, st.cookie⟩)
    | some v, some _ => (fingerprintMismatch fingerprint v, st)
    | none, none => (false, st)

/-- Outcome of one `checkRateLimit` call: `ok b` returns normally with
`b = true` meaning blocked; `err` models the uncaught `JSON.parse` throw at
useRateLimit.ts:117. -/
inductive CheckResult where
  | ok (blocked : Bool)
  | err
deriving DecidableEq

/-- Core of `checkRateLimit` (useRateLimit.ts:119-156), entered with the
parsed (or freshly synthesized) record.  `resetTime` is computed once from
the record as read; note that the later publications reuse this value even
after the window-elapsed reset replaced the record. -/
def checkCore (config : RateLimitConfig) (fingerprint : String) (now : Int)
    (record : RequestRecord) (st : ClientStorage) (view : ClientView) :
    CheckResult × ClientStorage × ClientView :=
  let resetTime := record.timestamp + config.windowMs
  if now < resetTime ∧ record.count ≥ config.maxRequests then
    (.ok true, st, ⟨true, 0, some resetTime⟩)
  else
    let rs : RequestRecord × ClientStorage :=
      if now ≥ resetTime then
        let fresh : RequestRecord := ⟨now, 0, some fingerprint⟩
        (fresh, setMultiStorage (.json fresh) st)
      else (record, st)
    if rs.1.count ≥ config.maxRequests then
      (.ok true, rs.2, ⟨true, 0, some resetTime⟩)
    else
      let incremented : RequestRecord := ⟨rs.1.timestamp, rs.1.count + 1, some fingerprint⟩
      (.ok false, setMultiStorage (.json incremented) rs.2,
        ⟨false, (config.maxRequests : Int) - (incremented.count : Int),
          if incremented.count ≥ config.maxRequests then some resetTime else none⟩)

/-- `checkRateLimit` (useRateLimit.ts:107-157): no-op when the fingerprint
is unavailable; otherwise run `detectManipulation`, read the record through
`getMultiStorage`, and admit/deny via `checkCore`.  A corrupt stored value
makes the call throw (`.err`) because the `JSON.parse` at line 117 is not
guarded. -/
def checkRateLimit (config : RateLimitConfig) (fingerprint : String) (now : Int)
    (st : ClientStorage) (view : ClientView) :
    CheckResult × ClientStorage × ClientView :=
  if fingerprint = "" then (.ok false, st, view)
  else
    let st1 := (detectManipulation config fingerprint st).2
    let gr := getMultiStorage st1
    match gr.1 with
    | some v =>
      match parseStored v with
      | some record => checkCore config fingerprint now record gr.2 view
      | none => (.err, gr.2, view)
    | none => checkCore config fingerprint now ⟨now, 0, some fingerprint⟩ gr.2 view

/-- The mount effect (useRateLimit.ts:70-105): read the record once and
publish the matching state; clear localStorage and sessionStorage when the
window has elapsed or the record fails to parse.  Never increments. -/
def mountEffect (config : RateLimitConfig) (fingerprint : String) (now : Int)
    (st : ClientStorage) (view : ClientView) : ClientStorage × ClientView :=
  if fingerprint = "" then (st, view)
  else
    let gr := getMultiStorage st
    match gr.1 with
    | none => (gr.2, view)
    | some v =>
      match parseStored v with
      | none => ({ gr.2 with localS := none, sessionS := none }, view)
      | some record =>
        let resetTimeValue := record.timestamp + config.windowMs
        if now < resetTimeValue ∧ record.count ≥ config.maxRequests then
          (gr.2, ⟨true, 0, some resetTimeValue⟩)
        else if now ≥ resetTimeValue then
          ({ gr.2 with localS := none, sessionS := none },
            ⟨false, (config.maxRequests : Int), none⟩)
        else
          (gr.2, ⟨false, (config.maxRequests : Int) - (record.count : Int), none⟩)

/-- `reset` (useRateLimit.ts:164-170): remove the record from localStorage
and sessionStorage (the cookie is not touched) and republish fresh state. -/
def reset (config : RateLimitConfig) (st : ClientStorage) : ClientStorage × ClientView :=
  ({ st with localS := none, sessionS := none },
    ⟨false, (config.maxRequests : Int), none⟩)

/-- One entry of the server's in-memory map (`{ count, timestamp }` in
route.ts:5). -/
structure ServerRecord where
  count : Nat
  timestamp : Int
deriving DecidableEq

/-- The process-wide `requestCounts` map, as an association list from client
identifier to record. -/
abbrev ServerMap := List (String × ServerRecord)

/-- `Map.get`: the record stored under a key, if any. -/
def mapGet (m : ServerMap) (k : String) : Option ServerRecord :=
  match m with
  | [] => none
  | (k', v) :: rest => if k' = k then some v else mapGet rest k

/-- `Map.set`: replace the entry under the key, or append a new one. -/
def mapSet (m : ServerMap) (k : String) (v : ServerRecord) : ServerMap :=
  match m with
  | [] => [(k, v)]
  | (k', v') :: rest => if k' = k then (k, v) :: rest else (k', v') :: mapSet rest k v

/-- Server policy constants (`RATE_LIMIT` in route.ts:7-10). -/
structure ServerRateLimit where
  maxRequests : Nat
  windowMs : Int
deriving DecidableEq

/-- maxRequests 2, windowMs 24h. -/
def RATE_LIMIT : ServerRateLimit := ⟨2, 24 * 60 * 60 * 1000⟩

/-- Result of `isRateLimited` (route.ts:40-44). -/
structure RateLimitResult where
  limited : Bool
  remainingRequests : Int
  resetTime : Option Int
deriving DecidableEq

/-- `isRateLimited` (route.ts:40-68): fresh record with count 1 when the key
is absent or strictly more than `windowMs` has passed since the record's
timestamp; deny without change once `count` reaches the cap inside the
window; otherwise increment (keeping the window start).  Returns the result
together with the updated map. -/
def isRateLimited (now : Int) (clientId : String) (requestCounts : ServerMap) :
    RateLimitResult × ServerMap :=
  match mapGet requestCounts clientId with
  | none =>
    (⟨false, (RATE_LIMIT.maxRequests : Int) - 1, none⟩,
      mapSet requestCounts clientId ⟨1, now⟩)
  | some record =>
    if now - record.timestamp > RATE_LIMIT.windowMs then
      (⟨false, (RATE_LIMIT.maxRequests : Int) - 1, none⟩,
        mapSet requestCounts clientId ⟨1, now⟩)
    else if record.count ≥ RATE_LIMIT.maxRequests then
      (⟨true, 0, some (record.timestamp + RATE_LIMIT.windowMs)⟩, requestCounts)
    else
      (⟨false, (RATE_LIMIT.maxRequests : Int) - ((record.count + 1 : Nat) : Int), none⟩,
        mapSet requestCounts clientId ⟨record.count + 1, record.timestamp⟩)

/-- The periodic eviction sweep (route.ts:152-159): drop every record whose
timestamp is more than `2 × windowMs` in the past. -/
def evict (now : Int) (m : ServerMap) : ServerMap :=
  m.filter (fun p => !(decide (now - p.2.timestamp > RATE_LIMIT.windowMs * 2)))

/-- Request metadata visible to `getClientIdentifier`: the four headers it
reads, plus the rest of the request (URL), which it must ignore. -/
structure ServerRequest where
  xForwardedFor : Option String
  xRealIp : Option String
  xClientIp : Option String
  userAgent : Option String
  url : String
deriving DecidableEq

/-- `headers.get` composed with JS truthiness: an absent or empty header
does not select its branch. -/
def headerVal (h : Option String) : Option String :=
  match h with
  | some s => if s = "" then none else some s
  | none => none

/-- The base64 alphabet used by `Buffer.toString("base64")`. -/
def base64Alphabet : List Char :=
  "ABCDEFGHIJKLMNOPQRSTUVWXYZabcdefghijklmnopqrstuvwxyz0123456789+/".toList

/-- The base64 digit for a 6-bit value. -/
def base64Char (n : Nat) : Char := base64Alphabet.getD n 'A'

/-- Encode one final group of 1-3 bytes into four base64 characters. -/
def base64Group : List Nat → List Char
  | [b0] => [base64Char (b0 / 4), base64Char (b0 % 4 * 16), '=', '=']
  | [b0, b1] =>
    [base64Char (b0 / 4), base64Char (b0 % 4 * 16 + b1 / 16),
      base64Char (b1 % 16 * 4), '=']
  | [b0, b1, b2] =>
    [base64Char (b0 / 4), base64Char (b0 % 4 * 16 + b1 / 16),
      base64Char (b1 % 16 * 4 + b2 / 64), base64Char (b2 % 64)]
  | _ => []

/-- Encode a byte sequence in three-byte groups. -/
def base64Chunks : List Nat → List Char
  | [] => []
  | b0 :: b1 :: b2 :: rest => base64Group [b0, b1, b2] ++ base64Chunks rest
  | rest => base64Group rest

/-- `s.split(",")[0]` in JS: the prefix of the string before the first
comma (the whole string when there is none). -/
def jsSplitFirst (s : String) : String :=
  String.mk (s.toList.takeWhile (fun c => c ≠ ','))

/-- `s.trim()` in JS: strip leading and trailing whitespace. -/
def jsTrim (s : String) : String :=
  String.mk
    (((s.toList.dropWhile Char.isWhitespace).reverse.dropWhile
      Char.isWhitespace).reverse)

/-- `s.slice(0, n)` in JS: the first `n` characters. -/
def jsTake (n : Nat) (s : String) : String :=
  String.mk (s.toList.take n)

/-- UTF-8 encoding of one character (`Buffer.from` reads the string as
UTF-8). -/
def charUtf8 (c : Char) : List Nat :=
  let n := c.toNat
  if n < 128 then [n]
  else if n < 2048 then [192 + n / 64, 128 + n % 64]
  else if n < 65536 then [224 + n / 4096, 128 + n / 64 % 64, 128 + n % 64]
  else [240 + n / 262144, 128 + n / 4096 % 64, 128 + n / 64 % 64, 128 + n % 64]

/-- UTF-8 bytes of a string. -/
def stringUtf8 (s : String) : List Nat :=
  s.toList.foldr (fun c acc => charUtf8 c ++ acc) []

/-- `Buffer.from(s).toString("base64")`: base64 of the UTF-8 bytes. -/
def base64Encode (s : String) : String :=
  String.mk (base64Chunks (stringUtf8 s))

/-- `getClientIdentifier` (route.ts:12-38): pick the IP from the first hop
of `x-forwarded-for`, else `x-real-ip`, else `x-client-ip`, else the
loopback fallback; append an underscore and the first 16 characters of the
base64 of the first 100 characters of the user agent. -/
def getClientIdentifier (request : ServerRequest) : String :=
  let ip :=
    match headerVal request.xForwardedFor with
    | some forwarded => jsTrim (jsSplitFirst forwarded)
    | none =>
      match headerVal request.xRealIp with
      | some realIP => realIP
      | none =>
        match headerVal request.xClientIp with
        | some clientIP => clientIP
        | none => "127.0.0.1"
  let userAgent := (headerVal request.userAgent).getD "unknown"
  let userAgentHash := jsTake 16 (base64Encode (jsTake 100 userAgent))
  ip ++ "_" ++ userAgentHash

/-- The client configuration used by the product (spec §6: maxRequests 2,
windowMs 24h). -/
def scenarioCfg : RateLimitConfig := ⟨2, 86400000, "restaurant-search-limit"⟩

/-- Consistency of the client storage as reached by gate operations from a
fresh browser: either no backend holds anything, or all three hold the same
serialized record and its count respects the configured cap. -/
def clientConsistentB (config : RateLimitConfig) (st : ClientStorage) : Bool :=
  match st.localS, st.sessionS, st.cookie with
  | none, none, none => true
  | some (.json r1), some (.json r2), some (.json r3) =>
    decide (r1 = r2) && decide (r2 = r3) && decide (r1.count ≤ config.maxRequests)
  | _, _, _ => false

/-- Run a sequence of `checkRateLimit` calls (one fingerprint, one config)
and check, before every call, that the storage is consistent and within the
cap, and that a blocked call leaves the storage untouched. -/
def clientTraceOKB (config : RateLimitConfig) (fingerprint : String) :
    ClientStorage × ClientView → List Int → Bool
  | s, [] => clientConsistentB config s.1
  | s, now :: rest =>
    let r := checkRateLimit config fingerprint now s.1 s.2
    clientConsistentB config s.1 &&
      decide (r.1 = CheckResult.ok true → r.2.1 = s.1) &&
      clientTraceOKB config fingerprint r.2 rest

/-- Every record in the server map respects the cap. -/
def serverCapB (m : ServerMap) : Bool :=
  m.all (fun p => decide (p.2.count ≤ RATE_LIMIT.maxRequests))

/-- Every record in the server map has a count between 1 and the cap. -/
def serverInvB (m : ServerMap) : Bool :=
  m.all (fun p =>
    decide (1 ≤ p.2.count) && decide (p.2.count ≤ RATE_LIMIT.maxRequests))

/-- Run a sequence of `isRateLimited` calls and check, before each, that
every stored count respects the cap, and that a limited call leaves the map
untouched. -/
def serverTraceOKB : ServerMap → List (Int × String) → Bool
  | m, [] => serverCapB m
  | m, (now, id) :: rest =>
    let r := isRateLimited now id m
    serverCapB m && decide (r.1.limited = true → r.2 = m) &&
      serverTraceOKB r.2 rest

/-- One unit of work on the server map: an admission check or an eviction
sweep. -/
inductive ServerOp where
  | call (now : Int) (id : String)
  | sweep (now : Int)

/-- Effect of one `ServerOp` on the map. -/
def serverOpStep (m : ServerMap) : ServerOp → ServerMap
  | .call now id => (isRateLimited now id m).2
  | .sweep now => evict now m

/-- The map reached from a fresh process by a sequence of calls and
sweeps. -/
def runServer (ops : List ServerOp) : ServerMap :=
  ops.foldl serverOpStep []

/-- Checks that a non-limited `isRateLimited` outcome reports
`remainingRequests = maxRequests − count` for the record it stored, and that
this is non-negative. -/
def admittedRemainingB (m : ServerMap) (now : Int) (id : String) : Bool :=
  let r := isRateLimited now id m
  r.1.limited ||
    (match mapGet r.2 id with
     | some rec =>
       decide (r.1.remainingRequests = (RATE_LIMIT.maxRequests : Int) - (rec.count : Int)) &&
         decide (0 ≤ r.1.remainingRequests)
     | none => false)

lemma mapGet_mapSet_self (m : ServerMap) (k : String) (v : ServerRecord) :
    mapGet (mapSet m k v) k = some v := by
  induction m with
  | nil => simp [mapGet, mapSet]
  | cons p rest ih =>
    obtain ⟨k', v'⟩ := p
    by_cases h : k' = k <;> simp [mapGet, mapSet, h, ih]

lemma all_mapSet (f : String × ServerRecord → Bool) (m : ServerMap) (k : String)
    (v : ServerRecord) (hm : m.all f = true) (hv : f (k, v) = true) :
    (mapSet m k v).all f = true := by
  induction m with
  | nil => simp [mapSet, hv]
  | cons p rest ih =>
    obtain ⟨k', v'⟩ := p
    simp only [List.all_cons, Bool.and_eq_true] at hm
    by_cases h : k' = k <;>
      simp [mapSet, h, hv, hm.1, hm.2, ih hm.2]

lemma all_mapGet (f : String × ServerRecord → Bool) (m : ServerMap) (k : String)
    (r : ServerRecord) (hm : m.all f = true) (hg : mapGet m k = some r) :
    f (k, r) = true := by
  induction m with
  | nil => simp [mapGet] at hg
  | cons p rest ih =>
    obtain ⟨k', v'⟩ := p
    simp only [List.all_cons, Bool.and_eq_true] at hm
    unfold mapGet at hg
    by_cases h : k' = k
    · subst h
      simp at hg
      subst hg
      exact hm.1
    · simp only [if_neg h] at hg
      exact ih hm.2 hg

lemma serverCapB_mapSet (m : ServerMap) (k : String) (v : ServerRecord)
    (hm : serverCapB m = true) (hv : v.count ≤ RATE_LIMIT.maxRequests) :
    serverCapB (mapSet m k v) = true := by
  unfold serverCapB at hm ⊢
  exact all_mapSet _ m k v hm (by simpa using hv)

lemma serverInvB_mapSet (m : ServerMap) (k : String) (v : ServerRecord)
    (hm : serverInvB m = true) (hv1 : 1 ≤ v.count)
    (hv2 : v.count ≤ RATE_LIMIT.maxRequests) :
    serverInvB (mapSet m k v) = true := by
  unfold serverInvB at hm ⊢
  refine all_mapSet _ m k v hm ?_
  simp only [Bool.and_eq_true, decide_eq_true_eq]
  exact ⟨hv1, hv2⟩

lemma serverCapB_step (m : ServerMap) (now : Int) (id : String)
    (hm : serverCapB m = true) : serverCapB (isRateLimited now id m).2 = true := by
  unfold isRateLimited
  cases hget : mapGet m id with
  | none =>
    exact serverCapB_mapSet m id ⟨1, now⟩ hm (by show (1:Nat) ≤ RATE_LIMIT.maxRequests; decide)
  | some record =>
    by_cases h1 : now - record.timestamp > RATE_LIMIT.windowMs
    · simp only [if_pos h1]
      exact serverCapB_mapSet m id ⟨1, now⟩ hm (by show (1:Nat) ≤ RATE_LIMIT.maxRequests; decide)
    · by_cases h2 : record.count ≥ RATE_LIMIT.maxRequests
      · simp only [if_neg h1, if_pos h2]
        exact hm
      · simp only [if_neg h1, if_neg h2]
        refine serverCapB_mapSet m id ⟨record.count + 1, record.timestamp⟩ hm ?_
        show record.count + 1 ≤ RATE_LIMIT.maxRequests
        omega

lemma serverInvB_step (m : ServerMap) (now : Int) (id : String)
    (hm : serverInvB m = true) : serverInvB (isRateLimited now id m).2 = true := by
  unfold isRateLimited
  cases hget : mapGet m id with
  | none =>
    exact serverInvB_mapSet m id ⟨1, now⟩ hm
      (by show (1:Nat) ≤ 1; decide) (by show (1:Nat) ≤ RATE_LIMIT.maxRequests; decide)
  | some record =>
    by_cases h1 : now - record.timestamp > RATE_LIMIT.windowMs
    · simp only [if_pos h1]
      exact serverInvB_mapSet m id ⟨1, now⟩ hm
        (by show (1:Nat) ≤ 1; decide) (by show (1:Nat) ≤ RATE_LIMIT.maxRequests; decide)
    · by_cases h2 : record.count ≥ RATE_LIMIT.maxRequests
      · simp only [if_neg h1, if_pos h2]
        exact hm
      · simp only [if_neg h1, if_neg h2]
        refine serverInvB_mapSet m id ⟨record.count + 1, record.timestamp⟩ hm
          (by show (1:Nat) ≤ record.count + 1; omega) ?_
        show record.count + 1 ≤ RATE_LIMIT.maxRequests
        omega

lemma serverInvB_evict (now : Int) (m : ServerMap)
    (hm : serverInvB m = true) : serverInvB (evict now m) = true := by
  simp only [serverInvB, List.all_eq_true] at *
  intro x hx
  exact hm x (List.mem_of_mem_filter hx)

lemma isRateLimited_limited_frame (m : ServerMap) (now : Int) (id : String)
    (hl : (isRateLimited now id m).1.limited = true) :
    (isRateLimited now id m).2 = m := by
  unfold isRateLimited at *
  cases hget : mapGet m id with
  | none => simp [hget] at hl
  | some record =>
    by_cases h1 : now - record.timestamp > RATE_LIMIT.windowMs
    · simp [hget, if_pos h1] at hl
    · by_cases h2 : record.count ≥ RATE_LIMIT.maxRequests
      · simp [hget, if_neg h1, if_pos h2]
      · simp [hget, if_neg h1, if_neg h2] at hl

lemma admittedRemainingB_true (m : ServerMap) (now : Int) (id : String) :
    admittedRemainingB m now id = true := by
  have hmax : RATE_LIMIT.maxRequests = 2 := rfl
  unfold admittedRemainingB isRateLimited
  cases hget : mapGet m id with
  | none =>
    simp [mapGet_mapSet_self, hmax]
  | some record =>
    by_cases h1 : now - record.timestamp > RATE_LIMIT.windowMs
    · simp [if_pos h1, mapGet_mapSet_self, hmax]
    · by_cases h2 : record.count ≥ RATE_LIMIT.maxRequests
      · simp [if_neg h1, if_pos h2]
      · simp only [if_neg h1, if_neg h2, mapGet_mapSet_self, Bool.or_eq_true,
          Bool.and_eq_true, decide_eq_true_eq]
        rw [hmax] at h2 ⊢
        refine Or.inr ⟨by simp, ?_⟩
        omega

lemma serverTraceOKB_sound :
    ∀ (ops : List (Int × String)) (m : ServerMap),
      serverCapB m = true → serverTraceOKB m ops = true := by
  intro ops
  induction ops with
  | nil => intro m hm; simpa [serverTraceOKB] using hm
  | cons op rest ih =>
    intro m hm
    obtain ⟨now, id⟩ := op
    simp only [serverTraceOKB, Bool.and_eq_true, decide_eq_true_eq]
    exact ⟨⟨hm, isRateLimited_limited_frame m now id⟩,
      ih _ (serverCapB_step m now id hm)⟩

lemma serverInvB_runServer_aux :
    ∀ (ops : List ServerOp) (m : ServerMap),
      serverInvB m = true → serverInvB (ops.foldl serverOpStep m) = true := by
  intro ops
  induction ops with
  | nil => intro m hm; simpa using hm
  | cons op rest ih =>
    intro m hm
    cases op with
    | call now id => exact ih _ (serverInvB_step m now id hm)
    | sweep now => exact ih _ (serverInvB_evict now m hm)

lemma consistent_empty (config : RateLimitConfig) :
    clientConsistentB config emptyStorage = true := rfl

lemma consistent_setMulti (config : RateLimitConfig) (x : RequestRecord)
    (st : ClientStorage) (hx : x.count ≤ config.maxRequests) :
    clientConsistentB config (setMultiStorage (.json x) st) = true := by
  simp [setMultiStorage, clientConsistentB, hx]

lemma consistent_cases (config : RateLimitConfig) (st : ClientStorage)
    (hs : clientConsistentB config st = true) :
    st = emptyStorage ∨
      ∃ r : RequestRecord, r.count ≤ config.maxRequests ∧
        st = ⟨some (.json r), some (.json r), some (.json r)⟩ := by
  obtain ⟨l, s, c⟩ := st
  rcases l with _ | (r1 | b1) <;> rcases s with _ | (r2 | b2) <;>
    rcases c with _ | (r3 | b3) <;>
    simp only [clientConsistentB, Bool.and_eq_true, Bool.false_eq_true,
      decide_eq_true_eq] at hs
  · exact Or.inl rfl
  · obtain ⟨⟨h12, h23⟩, hc⟩ := hs
    subst h12
    subst h23
    exact Or.inr ⟨r1, hc, rfl⟩

lemma checkCore_step (config : RateLimitConfig) (h : 1 ≤ config.maxRequests)
    (fingerprint : String) (now : Int) (r : RequestRecord) (st : ClientStorage)
    (view : ClientView) (hr : r.count ≤ config.maxRequests)
    (hst : clientConsistentB config st = true) :
    clientConsistentB config (checkCore config fingerprint now r st view).2.1 = true ∧
    ((checkCore config fingerprint now r st view).1 = CheckResult.ok true →
      (checkCore config fingerprint now r st view).2.1 = st) := by
  unfold checkCore
  by_cases hb : now < r.timestamp + config.windowMs ∧ r.count ≥ config.maxRequests
  · simp only [if_pos hb]
    exact ⟨hst, fun _ => trivial⟩
  · simp only [if_neg hb]
    by_cases hrt : now ≥ r.timestamp + config.windowMs
    · simp only [if_pos hrt]
      have h0 : ¬ ((⟨now, 0, some fingerprint⟩ : RequestRecord).count ≥ config.maxRequests) := by
        show ¬ (0 ≥ config.maxRequests)
        omega
      simp only [if_neg h0]
      refine ⟨consistent_setMulti config _ _ ?_, ?_⟩
      · show 0 + 1 ≤ config.maxRequests
        omega
      · intro hcontra
        simp at hcontra
    · simp only [if_neg hrt]
      by_cases hc : r.count ≥ config.maxRequests
      · simp only [if_pos hc]
        exact ⟨hst, fun _ => trivial⟩
      · simp only [if_neg hc]
        refine ⟨consistent_setMulti config _ _ ?_, ?_⟩
        · show r.count + 1 ≤ config.maxRequests
          omega
        · intro hcontra
          simp at hcontra

lemma check_step (config : RateLimitConfig) (h : 1 ≤ config.maxRequests)
    (fingerprint : String) (now : Int) (st : ClientStorage) (view : ClientView)
    (hs : clientConsistentB config st = true) :
    clientConsistentB config (checkRateLimit config fingerprint now st view).2.1 = true ∧
    ((checkRateLimit config fingerprint now st view).1 = CheckResult.ok true →
      (checkRateLimit config fingerprint now st view).2.1 = st) := by
  by_cases hfp : fingerprint = ""
  · simp only [checkRateLimit, if_pos hfp]
    refine ⟨hs, ?_⟩
    intro hcontra
    simp at hcontra
  · rcases consistent_cases config st hs with hempty | ⟨r, hr, hshape⟩
    · subst hempty
      have hred : checkRateLimit config fingerprint now emptyStorage view =
          checkCore config fingerprint now ⟨now, 0, some fingerprint⟩ emptyStorage view := by
        simp [checkRateLimit, if_neg hfp, detectManipulation, getMultiStorage,
          emptyStorage]
      rw [hred]
      exact checkCore_step config h fingerprint now _ emptyStorage view
        (Nat.zero_le _) (consistent_empty config)
    · subst hshape
      have hred : checkRateLimit config fingerprint now
            ⟨some (.json r), some (.json r), some (.json r)⟩ view =
          checkCore config fingerprint now r
            ⟨some (.json r), some (.json r), some (.json r)⟩ view := by
        simp [checkRateLimit, if_neg hfp, detectManipulation, getMultiStorage,
          parseStored]
      rw [hred]
      exact checkCore_step config h fingerprint now r _ view hr hs

lemma clientTraceOKB_sound (config : RateLimitConfig)
    (h : 1 ≤ config.maxRequests) (fingerprint : String) :
    ∀ (calls : List Int) (s : ClientStorage × ClientView),
      clientConsistentB config s.1 = true →
      clientTraceOKB config fingerprint s calls = true := by
  intro calls
  induction calls with
  | nil => intro s hs; simpa [clientTraceOKB] using hs
  | cons now rest ih =>
    intro s hs
    obtain ⟨h1, h2⟩ := check_step config h fingerprint now s.1 s.2 hs
    simp only [clientTraceOKB, Bool.and_eq_true, decide_eq_true_eq]
    exact ⟨⟨hs, h2⟩, ih _ h1⟩

/-- C1: for both admission gates (client `checkRateLimit` and server
`isRateLimited`), along every sequence of calls under one configuration and
one identity starting from a fresh store, the stored record's count never
exceeds `maxRequests` (in particular while the window is open), and a denied
call leaves the stored state unchanged. -/
theorem c1_cap_invariant_and_denial_frame (config : RateLimitConfig)
    (h : 1 ≤ config.maxRequests) (fingerprint : String) (calls : List Int)
    (serverCalls : List (Int × String)) :
    clientTraceOKB config fingerprint (emptyStorage, initView config) calls = true ∧
    serverTraceOKB [] serverCalls = true := by
  constructor
  · exact clientTraceOKB_sound config h fingerprint calls _ (consistent_empty config)
  · exact serverTraceOKB_sound serverCalls [] rfl

/-- Witness for C1: the product configuration, a client trace crossing the
window boundary, and a server trace with a repeated identity. -/
theorem c1_cap_invariant_and_denial_frame_witness :
    1 ≤ scenarioCfg.maxRequests ∧
    (clientTraceOKB scenarioCfg "fp0" (emptyStorage, initView scenarioCfg)
        [0, 1000, 2000, 86400001] = true ∧
      serverTraceOKB [] [(0, "a"), (1, "a"), (2, "a"), (3, "b")] = true) :=
  ⟨by decide, c1_cap_invariant_and_denial_frame scenarioCfg (by decide) "fp0"
    [0, 1000, 2000, 86400001] [(0, "a"), (1, "a"), (2, "a"), (3, "b")]⟩

/-- C2: client gate with maxRequests 2 and windowMs 86400000, from no stored
record: calls at t 0, 1000, 2000, 86400001 are admitted with remaining 1,
admitted with remaining 0, blocked with remaining 0 and reset time 86400000,
and admitted with remaining 1. -/
theorem c2_client_concrete_scenario :
    (let s0 : ClientStorage × ClientView := (emptyStorage, initView scenarioCfg)
     let r1 := checkRateLimit scenarioCfg "fp0" 0 s0.1 s0.2
     let r2 := checkRateLimit scenarioCfg "fp0" 1000 r1.2.1 r1.2.2
     let r3 := checkRateLimit scenarioCfg "fp0" 2000 r2.2.1 r2.2.2
     let r4 := checkRateLimit scenarioCfg "fp0" 86400001 r3.2.1 r3.2.2
     r1.1 = CheckResult.ok false ∧ r1.2.2.isLimited = false ∧
       r1.2.2.remainingRequests = 1 ∧
     r2.1 = CheckResult.ok false ∧ r2.2.2.remainingRequests = 0 ∧
     r3.1 = CheckResult.ok true ∧ r3.2.2.isLimited = true ∧
       r3.2.2.remainingRequests = 0 ∧ r3.2.2.resetTime = some 86400000 ∧
     r4.1 = CheckResult.ok false ∧ r4.2.2.remainingRequests = 1) := by
  decide

/-- C3 counterexample: at `now = windowStart + windowMs` exactly, the claim
reads the window as elapsed, but the server's strict test
`now − timestamp > windowMs` still treats the record as in-window and denies
without resetting. -/
theorem c3_boundary_counterexample :
    (86400000 : Int) ≥ 0 + RATE_LIMIT.windowMs ∧
    (isRateLimited 86400000 "c" [("c", ⟨2, 0⟩)]).1.limited = true ∧
    mapGet (isRateLimited 86400000 "c" [("c", ⟨2, 0⟩)]).2 "c" = some ⟨2, 0⟩ := by
  decide

/-- C3 (amended): when strictly more than `windowMs` has passed since the
stored record's window start, the next call is admitted with
`maxRequests − 1` remaining and installs a fresh record with count 1 and
timestamp `now`, regardless of the pre-elapse count. -/
theorem c3_elapsed_reset (m : ServerMap) (id : String) (now : Int)
    (r : ServerRecord) (hget : mapGet m id = some r)
    (helapsed : now - r.timestamp > RATE_LIMIT.windowMs) :
    (isRateLimited now id m).1.limited = false ∧
    (isRateLimited now id m).1.remainingRequests =
      (RATE_LIMIT.maxRequests : Int) - 1 ∧
    mapGet (isRateLimited now id m).2 id = some ⟨1, now⟩ := by
  unfold isRateLimited
  rw [hget]
  simp only [if_pos helapsed]
  exact ⟨by trivial, by trivial, mapGet_mapSet_self m id ⟨1, now⟩⟩

/-- Witness for the amended C3: a record with count 2 stored at time 0,
observed strictly after the window. -/
theorem c3_elapsed_reset_witness :
    mapGet [("c", (⟨2, 0⟩ : ServerRecord))] "c" = some ⟨2, 0⟩ ∧
    (86400001 : Int) - (0 : Int) > RATE_LIMIT.windowMs ∧
    ((isRateLimited 86400001 "c" [("c", ⟨2, 0⟩)]).1.limited = false ∧
      (isRateLimited 86400001 "c" [("c", ⟨2, 0⟩)]).1.remainingRequests =
        (RATE_LIMIT.maxRequests : Int) - 1 ∧
      mapGet (isRateLimited 86400001 "c" [("c", ⟨2, 0⟩)]).2 "c" =
        some ⟨1, 86400001⟩) :=
  ⟨by decide, by decide,
    c3_elapsed_reset [("c", ⟨2, 0⟩)] "c" 86400001 ⟨2, 0⟩ (by decide) (by decide)⟩

/-- C4 (code behaviour at the failing input): with a corrupt value in both
primary backends, `checkRateLimit` throws (the `JSON.parse` at
useRateLimit.ts:117 is unguarded) and does not discard the record, while the
mount effect catches the failure and discards it from both primary backends
as the claim describes. -/
theorem c4_corrupt_record_behaviour :
    (checkRateLimit scenarioCfg "fp0" 0
        ⟨some (.corrupt "x"), some (.corrupt "x"), none⟩
        (initView scenarioCfg)).1 = CheckResult.err ∧
    (checkRateLimit scenarioCfg "fp0" 0
        ⟨some (.corrupt "x"), some (.corrupt "x"), none⟩
        (initView scenarioCfg)).2.1 =
      ⟨some (.corrupt "x"), some (.corrupt "x"), none⟩ ∧
    (mountEffect scenarioCfg "fp0" 0
        ⟨some (.corrupt "x"), some (.corrupt "x"), none⟩
        (initView scenarioCfg)).1 = ⟨none, none, none⟩ := by
  decide

/-- C5 counterexample: after writing a record to all three backends and
deleting it from sessionStorage only, a read returns the record (from
localStorage) but does not repopulate sessionStorage, contrary to the
claim. -/
theorem c5_session_not_repopulated_counterexample :
    (getMultiStorage { setMultiStorage (.json ⟨0, 1, some "fp0"⟩) emptyStorage with
        sessionS := none }).2.sessionS = none ∧
    (getMultiStorage { setMultiStorage (.json ⟨0, 1, some "fp0"⟩) emptyStorage with
        sessionS := none }).1 = some (.json ⟨0, 1, some "fp0"⟩) := by
  decide

/-- C5 (amended): after writing a value to all three backends and deleting
it from exactly one, a read always returns the correct value; the deleted
backend is repopulated only when it is localStorage (back-filled from
sessionStorage) — deleting sessionStorage or the cookie leaves that backend
empty because the read stops at the localStorage hit. -/
theorem c5_single_backend_deletion (v : StoredValue) :
    (getMultiStorage { setMultiStorage v emptyStorage with localS := none }).1 =
      some v ∧
    (getMultiStorage { setMultiStorage v emptyStorage with localS := none }).2 =
      setMultiStorage v emptyStorage ∧
    (getMultiStorage { setMultiStorage v emptyStorage with sessionS := none }).1 =
      some v ∧
    (getMultiStorage { setMultiStorage v emptyStorage with sessionS := none }).2 =
      { setMultiStorage v emptyStorage with sessionS := none } ∧
    (getMultiStorage { setMultiStorage v emptyStorage with cookie := none }).1 =
      some v ∧
    (getMultiStorage { setMultiStorage v emptyStorage with cookie := none }).2 =
      { setMultiStorage v emptyStorage with cookie := none } := by
  unfold getMultiStorage setMultiStorage
  simp

/-- C6 counterexample: `reset` does not clear the cookie backend, so after a
reset a subsequent read still finds the record (and back-fills it into the
primary backends), contrary to the claim that no backend holds a record. -/
theorem c6_cookie_survives_reset_counterexample :
    (reset scenarioCfg
        (setMultiStorage (.json ⟨0, 2, some "fp0"⟩) emptyStorage)).1.cookie =
      some (.json ⟨0, 2, some "fp0"⟩) ∧
    (getMultiStorage (reset scenarioCfg
        (setMultiStorage (.json ⟨0, 2, some "fp0"⟩) emptyStorage)).1).1 =
      some (.json ⟨0, 2, some "fp0"⟩) := by
  decide

/-- C6 (amended): `reset()` removes the record from localStorage and
sessionStorage and republishes fresh state unconditionally, but leaves the
cookie backend untouched, so a subsequent read returns whatever the cookie
still holds. -/
theorem c6_reset_clears_primary_backends (config : RateLimitConfig)
    (st : ClientStorage) :
    (reset config st).1.localS = none ∧
    (reset config st).1.sessionS = none ∧
    (reset config st).1.cookie = st.cookie ∧
    (reset config st).2 = ⟨false, (config.maxRequests : Int), none⟩ ∧
    (getMultiStorage (reset config st).1).1 = st.cookie := by
  obtain ⟨l, s, c⟩ := st
  unfold reset getMultiStorage
  cases c <;> simp

/-- C7: the server identity derivation is deterministic in the four header
values it reads — two requests agreeing on x-forwarded-for, x-real-ip,
x-client-ip and user-agent yield the same identifier, whatever the rest of
the request is. -/
theorem c7_identity_deterministic (r1 r2 : ServerRequest)
    (h1 : r1.xForwardedFor = r2.xForwardedFor) (h2 : r1.xRealIp = r2.xRealIp)
    (h3 : r1.xClientIp = r2.xClientIp) (h4 : r1.userAgent = r2.userAgent) :
    getClientIdentifier r1 = getClientIdentifier r2 := by
  unfold getClientIdentifier
  rw [h1, h2, h3, h4]

/-- Witness for C7: two requests with identical headers but different
URLs. -/
theorem c7_identity_deterministic_witness :
    (⟨some "203.0.113.5", none, none, some "Mozilla/5.0",
        "/api/restaurants?latitude=1"⟩ : ServerRequest).xForwardedFor =
      (⟨some "203.0.113.5", none, none, some "Mozilla/5.0",
        "/api/restaurants?latitude=2"⟩ : ServerRequest).xForwardedFor ∧
    getClientIdentifier
        (⟨some "203.0.113.5", none, none, some "Mozilla/5.0",
          "/api/restaurants?latitude=1"⟩ : ServerRequest) =
      getClientIdentifier
        (⟨some "203.0.113.5", none, none, some "Mozilla/5.0",
          "/api/restaurants?latitude=2"⟩ : ServerRequest) :=
  ⟨rfl, c7_identity_deterministic _ _ rfl rfl rfl rfl⟩

/-- C8 counterexample: a record carrying fingerprint F1, present only in the
cookie backend, is readable by the store and mismatches the session
fingerprint F2, yet `detectManipulation` returns false because it never
examines the cookie. -/
theorem c8_cookie_only_counterexample :
    (getMultiStorage ⟨none, none, some (.json ⟨0, 1, some "F1"⟩)⟩).1 =
      some (.json ⟨0, 1, some "F1"⟩) ∧
    ("F1" : String) ≠ "F2" ∧
    (detectManipulation scenarioCfg "F2"
        ⟨none, none, some (.json ⟨0, 1, some "F1"⟩)⟩).1 = false := by
  decide

/-- C8 (amended): when the mismatching record is visible to
`detectManipulation` — present in localStorage with sessionStorage also
populated, or present in exactly one primary backend — the call returns
true; it performs no write beyond the presence-healing copy (which preserves
the stored record and its count), and the embedded function does not touch
the published view at all, mirroring that the source calls no state setter
on these paths.  A record present only in the cookie yields false. -/
theorem c8_fingerprint_mismatch_signal (config : RateLimitConfig)
    (fp f1 : String) (r : RequestRecord) (c : Option StoredValue)
    (hfp : fp ≠ "") (hf : r.fingerprint = some f1) (h1 : f1 ≠ "")
    (h2 : f1 ≠ fp) :
    detectManipulation config fp ⟨some (.json r), some (.json r), c⟩ =
      (true, ⟨some (.json r), some (.json r), c⟩) ∧
    detectManipulation config fp ⟨some (.json r), none, c⟩ =
      (true, ⟨some (.json r), some (.json r), c⟩) ∧
    detectManipulation config fp ⟨none, some (.json r), c⟩ =
      (true, ⟨some (.json r), some (.json r), c⟩) ∧
    (detectManipulation config fp ⟨none, none, some (.json r)⟩).1 = false := by
  unfold detectManipulation fingerprintMismatch parseStored
  simp [hfp, hf, h1, h2]

/-- Witness for the amended C8: fingerprint F1 stored, current session
fingerprint F2. -/
theorem c8_fingerprint_mismatch_signal_witness :
    ("F2" : String) ≠ "" ∧
    (⟨0, 1, some "F1"⟩ : RequestRecord).fingerprint = some "F1" ∧
    ("F1" : String) ≠ "" ∧ ("F1" : String) ≠ "F2" ∧
    (detectManipulation scenarioCfg "F2"
        ⟨some (.json ⟨0, 1, some "F1"⟩), some (.json ⟨0, 1, some "F1"⟩), none⟩ =
      (true, ⟨some (.json ⟨0, 1, some "F1"⟩), some (.json ⟨0, 1, some "F1"⟩),
        none⟩) ∧
    detectManipulation scenarioCfg "F2"
        ⟨some (.json ⟨0, 1, some "F1"⟩), none, none⟩ =
      (true, ⟨some (.json ⟨0, 1, some "F1"⟩), some (.json ⟨0, 1, some "F1"⟩),
        none⟩) ∧
    detectManipulation scenarioCfg "F2"
        ⟨none, some (.json ⟨0, 1, some "F1"⟩), none⟩ =
      (true, ⟨some (.json ⟨0, 1, some "F1"⟩), some (.json ⟨0, 1, some "F1"⟩),
        none⟩) ∧
    (detectManipulation scenarioCfg "F2"
        ⟨none, none, some (.json ⟨0, 1, some "F1"⟩)⟩).1 = false) :=
  ⟨by decide, rfl, by decide, by decide,
    c8_fingerprint_mismatch_signal scenarioCfg "F2" "F1" ⟨0, 1, some "F1"⟩ none
      (by decide) rfl (by decide) (by decide)⟩

/-- C9: every server map reachable by calls and eviction sweeps from a fresh
process has records with counts between 1 and maxRequests, and every
admitted call reports `remainingRequests = maxRequests − count ≥ 0` for the
record it leaves in the map. -/
theorem c9_server_map_invariant (ops : List ServerOp) (now : Int)
    (id : String) :
    serverInvB (runServer ops) = true ∧
    admittedRemainingB (runServer ops) now id = true := by
  constructor
  · exact serverInvB_runServer_aux ops [] rfl
  · exact admittedRemainingB_true (runServer ops) now id

/-- C10: with maxRequests 1, a `checkRateLimit` call after the stored
window has elapsed is admitted and writes a fresh record with count 1 and
timestamp `now`, but publishes `resetTime` computed from the old record's
window start (`old windowStart + windowMs`, not after `now`), rather than
from the new window's start (`now + windowMs`). -/
theorem c10_stale_reset_time (w ts : Int) (c0 : Nat) (fpOld : Option String)
    (fp : String) (now : Int) (key : String)
    (hw : 0 < w) (hfp : fp ≠ "") (helapsed : ts + w ≤ now) :
    (checkRateLimit ⟨1, w, key⟩ fp now
        (setMultiStorage (.json ⟨ts, c0, fpOld⟩) emptyStorage)
        (initView ⟨1, w, key⟩)).1 = CheckResult.ok false ∧
    (checkRateLimit ⟨1, w, key⟩ fp now
        (setMultiStorage (.json ⟨ts, c0, fpOld⟩) emptyStorage)
        (initView ⟨1, w, key⟩)).2.1 =
      setMultiStorage (.json ⟨now, 1, some fp⟩) emptyStorage ∧
    (checkRateLimit ⟨1, w, key⟩ fp now
        (setMultiStorage (.json ⟨ts, c0, fpOld⟩) emptyStorage)
        (initView ⟨1, w, key⟩)).2.2.resetTime = some (ts + w) ∧
    ts + w ≤ now ∧ ts + w < now + w := by
  have hred : checkRateLimit ⟨1, w, key⟩ fp now
      (setMultiStorage (.json ⟨ts, c0, fpOld⟩) emptyStorage)
      (initView ⟨1, w, key⟩) =
      checkCore ⟨1, w, key⟩ fp now ⟨ts, c0, fpOld⟩
        (setMultiStorage (.json ⟨ts, c0, fpOld⟩) emptyStorage)
        (initView ⟨1, w, key⟩) := by
    simp [checkRateLimit, hfp, detectManipulation, getMultiStorage,
      setMultiStorage, parseStored]
  rw [hred]
  simp only [checkCore]
  rw [if_neg (show ¬ (now < ts + w ∧ c0 ≥ 1) by omega),
    if_pos (show now ≥ ts + w by omega)]
  refine ⟨by simp, by simp [setMultiStorage], by simp, helapsed, by omega⟩

/-- Witness for C10: a count-1 record stored at time 0 with a 24h window,
rechecked exactly when the window elapses. -/
theorem c10_stale_reset_time_witness :
    (0 : Int) < 86400000 ∧ ("g" : String) ≠ "" ∧
    (0 : Int) + 86400000 ≤ 86400000 ∧
    ((checkRateLimit ⟨1, 86400000, "k"⟩ "g" 86400000
        (setMultiStorage (.json ⟨0, 1, some "f"⟩) emptyStorage)
        (initView ⟨1, 86400000, "k"⟩)).1 = CheckResult.ok false ∧
      (checkRateLimit ⟨1, 86400000, "k"⟩ "g" 86400000
        (setMultiStorage (.json ⟨0, 1, some "f"⟩) emptyStorage)
        (initView ⟨1, 86400000, "k"⟩)).2.1 =
        setMultiStorage (.json ⟨86400000, 1, some "g"⟩) emptyStorage ∧
      (checkRateLimit ⟨1, 86400000, "k"⟩ "g" 86400000
        (setMultiStorage (.json ⟨0, 1, some "f"⟩) emptyStorage)
        (initView ⟨1, 86400000, "k"⟩)).2.2.resetTime = some ((0 : Int) + 86400000) ∧
      (0 : Int) + 86400000 ≤ 86400000 ∧
      (0 : Int) + 86400000 < 86400000 + 86400000) :=
  ⟨by decide, by decide, by decide,
    c10_stale_reset_time 86400000 0 1 (some "f") "g" 86400000 "k"
      (by decide) (by decide) (by decide)⟩

end Resto
